import Mathlib

/-!
Shallow embedding of the `native_executor` crate (water-rs/native_executor).

Each definition below is translated from a named item of the Rust source;
machine details (Arc, atomics, channels) are rendered as explicit state, and
Rust panics are rendered as `Except.error` with the panic message.
-/

namespace NativeExecutor

/-- The `Priority` enum from `src/lib.rs` (lines 106-120).  The crate defines
exactly two variants: `Default` (marked `#[default]`) and `Background`. -/
inductive Priority
  | Default
  | Background
deriving DecidableEq, Repr

/-- The `#[derive(Default)]` instance of `Priority`: the `#[default]` attribute
sits on `Priority::Default`. -/
def Priority.derivedDefault : Priority := Priority.Default

/-- Every value of `Priority` is one of the two declared variants. -/
def Priority.instFintype : Fintype Priority :=
  Fintype.ofList [Priority.Default, Priority.Background] (fun p => by cases p <;> simp)

attribute [instance] Priority.instFintype

/-- The `From<Priority> for u32` impl of `src/windows.rs` (lines 25-32), mapping
the two priority levels onto Windows thread-pool callback priorities
(`TP_CALLBACK_PRIORITY_NORMAL = 1`, `TP_CALLBACK_PRIORITY_LOW = 2`). -/
def Priority.toWindows : Priority → Nat
  | Priority.Default => 1
  | Priority.Background => 2

/-- The scheduling state of a `Timer` from `src/timer.rs` (lines 56-63):
`duration` is the `Option<Duration>` taken on first poll (durations as
nanosecond counts), `finished` is the value held by the shared
`Arc<AtomicBool>`. -/
structure Timer where
  duration : Option Nat
  finished : Bool
deriving DecidableEq, Repr

/-- `Timer::after` (src/timer.rs lines 89-94): duration present, flag false. -/
def Timer.after (d : Nat) : Timer :=
  { duration := some d, finished := false }

/-- `Timer::after_secs` (src/timer.rs lines 120-122): seconds to nanoseconds,
then `Timer::after`. -/
def Timer.after_secs (secs : Nat) : Timer :=
  Timer.after (secs * 1000000000)

/-- Result of `Future::poll`. -/
inductive Poll
  | Ready
  | Pending
deriving DecidableEq, Repr

/-- The outcome of one call to `<Timer as Future>::poll`: the returned
`Poll`, the timer's state afterwards, and the list of `(delay, priority)`
registrations passed to `exec_after` during the call. -/
structure PollOut where
  result : Poll
  timer : Timer
  registered : List (Nat × Priority)
deriving DecidableEq, Repr

/-- `<Timer as Future>::poll` (src/timer.rs lines 128-150): if the shared flag
is set, return `Ready` at once; otherwise, if the duration is still present,
take it and register one delayed callback via
`NativeExecutor::exec_after(duration, callback, Priority::Default)`, then
return `Pending`; otherwise just return `Pending`. -/
def Timer.poll (t : Timer) : PollOut :=
  if t.finished then
    { result := Poll.Ready, timer := t, registered := [] }
  else
    match t.duration with
    | some d =>
        { result := Poll.Pending
          timer := { duration := none, finished := t.finished }
          registered := [(d, Priority.Default)] }
    | none => { result := Poll.Pending, timer := t, registered := [] }

/-- The delayed callback registered by the first poll (src/timer.rs lines
140-145): whatever the current values of the shared flag and of the waker's
woken-state, it stores `true` into the flag and wakes the waker. -/
def timerCallback (_flag : Bool) (_woken : Bool) : Bool × Bool :=
  (true, true)

/-!
Backend delivery (src/android.rs, src/windows.rs).  Jobs are opaque
`Box<dyn FnOnce() + Send>` closures; we model them by an arbitrary type `J`
of job identities.  The `mpsc` channel of an `ExecutorQueue` is modelled by
its FIFO buffer (a list) together with a flag saying whether the receiving
worker is still alive (sends fail exactly when the receiver was dropped).
-/

/-- `ExecutorQueue::dispatch` (src/android.rs lines 33-38): send the job on the
channel; on `SendError` the unsent job is recovered from the error value and
invoked inline on the calling path.  Returns the channel buffer afterwards and
the list of jobs run inline during the call. -/
def ExecutorQueue.dispatch {J : Type} (channelOpen : Bool) (queue : List J)
    (job : J) : List J × List J :=
  if channelOpen then (queue ++ [job], []) else (queue, [job])

/-- `ExecutorQueue::dispatch_after` (src/android.rs lines 40-53): a zero delay
dispatches immediately; otherwise a sleeper thread sends the job after the
delay and, if the send fails, invokes the job inline on that path.
`channelOpen` is the channel's state at the moment of the send. -/
def ExecutorQueue.dispatch_after {J : Type} (channelOpen : Bool)
    (queue : List J) (delay : Nat) (job : J) : List J × List J :=
  if delay = 0 then ExecutorQueue.dispatch channelOpen queue job
  else if channelOpen then (queue ++ [job], []) else (queue, [job])

/-- The dedicated worker thread of `ExecutorQueue::new` (src/android.rs lines
25-29): it receives the buffered jobs in FIFO order and runs each exactly
once; the list returned is the sequence of job invocations it performs. -/
def ExecutorQueue.workerRun {J : Type} : List J → List J
  | [] => []
  | j :: rest => j :: ExecutorQueue.workerRun rest

/-- The arming of a Windows threadpool timer by `exec_after`
(src/windows.rs lines 105-138).  `context` is the callback context the timer
was created with — line 107 passes `ptr::null_mut()` to
`CreateThreadpoolTimer`, modelled as `none` — and `leaked` is the
`TimerContext` holding the job that is built afterwards and `mem::forget`-ten
at line 135 without ever being attached to the timer. -/
structure TimerArming (J : Type) where
  context : Option J
  leaked : Option J
deriving DecidableEq, Repr

/-- `WindowsPlatformExecutor::exec_after` (src/windows.rs lines 105-138):
`CreateThreadpoolTimer(Some(timer_callback), ptr::null_mut(), ptr::null())`
is called first; when it returns a non-null handle (`timerCreated`), the
one-shot timer is armed — carrying the null context it was created with —
and the `TimerContext` holding the job is leaked; when the handle cannot be
created, the function returns with the job never scheduled at all. -/
def WindowsPlatformExecutor.exec_after {J : Type} (timerCreated : Bool)
    (_delay : Nat) (job : J) : Option (TimerArming J) :=
  if timerCreated then some { context := none, leaked := some job } else none

/-- Number of invocations of the job submitted through
`WindowsPlatformExecutor::exec_after`: when the armed timer fires,
`timer_callback` (src/windows.rs lines 56-64) reconstructs a `TimerContext`
from the context pointer the timer was created with and runs that context's
callback — so the submitted job runs only if it sits in the timer's context,
and an unarmed timer runs nothing. -/
def WindowsPlatformExecutor.execAfterRuns {J : Type} (timerCreated : Bool)
    (delay : Nat) (job : J) : Nat :=
  match WindowsPlatformExecutor.exec_after timerCreated delay job with
  | some arming =>
      match arming.context with
      | some _ => 1
      | none => 0
  | none => 0

/-!
Mailbox (src/mailbox.rs).  A `Job<T>` is `Box<dyn Send + FnOnce(&T)>`
(line 40): it receives only a shared reference to the owned value, so we
model it as a function from the value to an observable effect `E`.  The
unbounded `async_channel` is modelled by its FIFO buffer (global order of
all producers' sends, per the channel's FIFO contract).
-/

/-- A Mailbox job: `Box<dyn Send + FnOnce(&T)>` (src/mailbox.rs line 40). -/
def Job (T E : Type) : Type := T → E

/-- `Sender::try_send` on the channel: appends to the FIFO buffer when the
receiving side is alive, otherwise leaves the buffer unchanged and reports
failure. -/
def trySend {α : Type} (recvAlive : Bool) (buf : List α) (a : α) :
    List α × Bool :=
  if recvAlive then (buf ++ [a], true) else (buf, false)

/-- A sequence of sends, in the single global order in which the producers'
send operations hit the channel. -/
def sendAll {α : Type} (recvAlive : Bool) (buf : List α) : List α → List α
  | [] => buf
  | a :: rest => sendAll recvAlive (trySend recvAlive buf a).1 rest

/-- The body of the background task of `Mailbox::new` (src/mailbox.rs lines
89-93): `while let Ok(update) = receiver.recv().await { update(&value) }`.
Applied to the final buffer contents, it yields the effects of the jobs in
application order together with the owned value afterwards (the jobs see only
`&value`, and the loop never reassigns `value`). -/
def mailboxRun {T E : Type} (value : T) : List (Job T E) → List E × T
  | [] => ([], value)
  | j :: rest =>
      let e := j value
      let r := mailboxRun value rest
      (e :: r.1, r.2)

/-- Channel state as seen by `receiver.recv()`: the FIFO buffer plus the
number of live senders (the channel closes when the last sender drops). -/
structure Chan (α : Type) where
  queue : List α
  senders : Nat
deriving DecidableEq

/-- One iteration of the background loop of `Mailbox::new`. -/
inductive StepOut (α : Type)
  | applied (a : α)
  | exited
  | blocked
deriving DecidableEq

/-- One `recv` of the background loop: a buffered job is received (and then
applied); an empty buffer with no live sender means the channel is closed, so
`recv` fails and the loop exits; an empty buffer with live senders suspends
the loop. -/
def chanStep {α : Type} : Chan α → StepOut α × Chan α
  | { queue := a :: rest, senders := s } =>
      (StepOut.applied a, { queue := rest, senders := s })
  | { queue := [], senders := 0 } =>
      (StepOut.exited, { queue := [], senders := 0 })
  | { queue := [], senders := Nat.succ s } =>
      (StepOut.blocked, { queue := [], senders := s + 1 })

/-- `Mailbox::handle` (src/mailbox.rs lines 144-146):
`let _ = self.sender.try_send(Box::new(update))` — the job is try-sent and
the `Result` is discarded; the function is total and returns the channel
buffer afterwards. -/
def Mailbox.handle {T E : Type} (recvAlive : Bool) (buf : List (Job T E))
    (update : Job T E) : List (Job T E) :=
  (trySend recvAlive buf update).1

/-- The job enqueued by `Mailbox::call` (src/mailbox.rs lines 187-190): it
applies `f` to the value and try-sends the result into the `bounded(1)`
response channel (the fresh slot, initially empty). -/
def callJob {T R : Type} (f : T → R) (v : T) (slot : Option R) : Option R :=
  match slot with
  | none => some (f v)
  | some r => some r

/-- `r.recv().await.expect("Mailbox call failed")` (src/mailbox.rs line 191):
receiving from the closed response channel with an empty slot panics with the
`expect` message. -/
def recvExpect {R : Type} : Option R → Except String R
  | some r => Except.ok r
  | none => Except.error "Mailbox call failed"

/-- `Mailbox::call` (src/mailbox.rs lines 182-192): enqueue `callJob` through
`handle` with a fresh single-slot response channel and suspend on its
receiver.  `applied = true` is the run in which the background task applies
the job to the value `v` it owns at that moment; `applied = false` is the run
in which the background task terminates before applying it, closing the
response channel with the slot still empty. -/
def Mailbox.call {T R : Type} (applied : Bool) (f : T → R) (v : T) :
    Except String R :=
  recvExpect (if applied then callJob f v none else none)

/-!
Thread-affine values (src/local_value.rs).  Thread identities (`ThreadId`)
are opaque; we model them by `Nat`.  Each access operation takes the identity
of the thread performing it; Rust panics become `Except.error` carrying the
assertion message.
-/

/-- `std::thread::ThreadId`, modelled by a natural number. -/
abbrev ThreadId := Nat

/-- `LocalValue<T>` (src/local_value.rs lines 12-16): the creating thread's
identity paired with the stored value. -/
structure LocalValue (T : Type) where
  created : ThreadId
  value : T

/-- `LocalValue::new` (src/local_value.rs lines 43-48): records the current
thread's identity. -/
def LocalValue.new {T : Type} (current : ThreadId) (v : T) : LocalValue T :=
  { created := current, value := v }

/-- `LocalValue::on_local` (src/local_value.rs lines 34-36). -/
def LocalValue.on_local {T : Type} (lv : LocalValue T) (current : ThreadId) :
    Bool :=
  lv.created == current

/-- The `Deref` impl (src/local_value.rs lines 51-60): assert `on_local`,
then hand out the stored value. -/
def LocalValue.deref {T : Type} (lv : LocalValue T) (current : ThreadId) :
    Except String T :=
  if lv.on_local current then Except.ok lv.value
  else Except.error "Attempted to access a LocalValue on a different thread"

/-- The `DerefMut` impl (src/local_value.rs lines 62-70): assert `on_local`,
then hand out mutable access — modelled as yielding the stored value together
with the wrapper updated by the write `w`. -/
def LocalValue.deref_mut {T : Type} (lv : LocalValue T) (current : ThreadId)
    (w : T) : Except String (T × LocalValue T) :=
  if lv.on_local current then
    Except.ok (lv.value, { created := lv.created, value := w })
  else Except.error "Attempted to mutate a LocalValue on a different thread"

/-- `LocalValue::into_inner` (src/local_value.rs lines 24-31): assert
`on_local`, then move the value out. -/
def LocalValue.into_inner {T : Type} (lv : LocalValue T)
    (current : ThreadId) : Except String T :=
  if lv.on_local current then Except.ok lv.value
  else Except.error "Attempted to get a LocalValue on a different thread"

/-- The `Drop` impl (src/local_value.rs lines 72-82): assert `on_local`, then
drop the inner value. -/
def LocalValue.drop {T : Type} (lv : LocalValue T) (current : ThreadId) :
    Except String Unit :=
  if lv.on_local current then Except.ok ()
  else Except.error "Attempted to drop a LocalValue on a different thread"

/-- `OnceValue<T>` (src/local_value.rs line 95):
`LocalValue<RefCell<Option<T>>>`; the `RefCell` is modelled by its
`Option<T>` occupancy. -/
structure OnceValue (T : Type) where
  inner : LocalValue (Option T)

/-- `OnceValue::new` (src/local_value.rs lines 101-103). -/
def OnceValue.new {T : Type} (current : ThreadId) (v : T) : OnceValue T :=
  { inner := LocalValue.new current (some v) }

/-- `OnceValue::get` (src/local_value.rs lines 110-112): borrow through the
`LocalValue` (thread assertion), then `as_ref().unwrap()` — panicking on an
emptied cell with the standard unwrap message. -/
def OnceValue.get {T : Type} (o : OnceValue T) (current : ThreadId) :
    Except String T :=
  match o.inner.deref current with
  | Except.error e => Except.error e
  | Except.ok none =>
      Except.error "called Option::unwrap on a None value"
  | Except.ok (some v) => Except.ok v

/-- `OnceValue::get_mut` (src/local_value.rs lines 119-121): borrow mutably
through the `LocalValue` (thread assertion), then `as_mut().unwrap()`. -/
def OnceValue.get_mut {T : Type} (o : OnceValue T) (current : ThreadId) :
    Except String T :=
  match o.inner.deref current with
  | Except.error e => Except.error e
  | Except.ok none =>
      Except.error "called Option::unwrap on a None value"
  | Except.ok (some v) => Except.ok v

/-- `OnceValue::take` (src/local_value.rs lines 128-130):
`self.0.borrow_mut().take().unwrap()` — thread assertion, empty the cell,
panic if it was already empty.  Returns the value and the emptied wrapper. -/
def OnceValue.take {T : Type} (o : OnceValue T) (current : ThreadId) :
    Except String (T × OnceValue T) :=
  match o.inner.deref current with
  | Except.error e => Except.error e
  | Except.ok none =>
      Except.error "called Option::unwrap on a None value"
  | Except.ok (some v) =>
      Except.ok (v, { inner := { created := o.inner.created, value := none } })

/-- `OnceValue::into_inner` (src/local_value.rs lines 137-142): move through
`LocalValue::into_inner` (thread assertion), then
`.expect("Once value has already been taken")`. -/
def OnceValue.into_inner {T : Type} (o : OnceValue T) (current : ThreadId) :
    Except String T :=
  match o.inner.into_inner current with
  | Except.error e => Except.error e
  | Except.ok none => Except.error "Once value has already been taken"
  | Except.ok (some v) => Except.ok v

/-!
Task spawning (src/lib.rs).  `async_task::spawn(future, schedule)` stores the
`schedule` closure once; every time the task is woken — the initial
`runnable.schedule()` and every later re-suspension — the runtime hands the
fresh `Runnable` to that same closure.  Runnables are opaque; we model them
by an arbitrary type `R`.
-/

/-- A submission to the platform executor: the runnable handed to `exec`
together with the priority argument passed alongside it. -/
structure Submission (R : Type) where
  runnable : R
  priority : Priority
deriving DecidableEq

/-- The schedule closure built by `spawn_with_priority` (src/lib.rs lines
155-162): it captures `priority` by move and submits every runnable through
`exec(move || runnable.run(), priority)`. -/
def spawnSchedule {R : Type} (priority : Priority) : R → Submission R :=
  fun runnable => { runnable := runnable, priority := priority }

/-- The submissions made over a task's whole lifetime: the runtime invokes the
one stored schedule closure once per wakeup (the initial `schedule()` and
each re-suspension). -/
def taskSubmissions {R : Type} (priority : Priority) (wakeups : List R) :
    List (Submission R) :=
  wakeups.map (spawnSchedule priority)

/-! Helper lemmas shared by the claim theorems. -/

/-- With the receiver alive, a run of sends appends to the buffer in order. -/
theorem sendAll_open {α : Type} :
    ∀ (sends buf : List α), sendAll true buf sends = buf ++ sends := by
  intro sends
  induction sends with
  | nil => intro buf; simp [sendAll]
  | cons a rest ih =>
      intro buf
      show sendAll true (trySend true buf a).1 rest = buf ++ a :: rest
      rw [show (trySend true buf a).1 = buf ++ [a] from rfl, ih]
      simp

/-! Claim theorems. -/

/-- C1 (counterexample): the claim that `Priority` is a closed enumeration of
exactly five scheduling classes is false of the code: the `Priority` type of
`src/lib.rs` does not have five values. -/
theorem priority_card_ne_five : ¬ (Fintype.card Priority = 5) := by decide

/-- C1 (amended): `Priority` is a closed enumeration of exactly two scheduling
classes, `Default` and `Background`; the two are distinct, no other value of
the type exists, and `Default` is the implicit default. -/
theorem priority_two_classes :
    Fintype.card Priority = 2 ∧
    Priority.Default ≠ Priority.Background ∧
    (∀ p : Priority, p = Priority.Default ∨ p = Priority.Background) ∧
    Priority.derivedDefault = Priority.Default := by decide

/-- C2 (code bug): the channel-backed queue backend does invoke every
submitted job exactly once — `dispatch` and `dispatch_after` leave exactly
the old buffer plus the new job to be invoked, buffered or run inline on the
calling path when the channel is closed, and the worker runs each buffered
job exactly once — but the Windows backend's `exec_after` never invokes the
submitted job: when the native timer handle is created, the timer is armed
with the null context of src/windows.rs line 107 while the job sits in the
`mem::forget`-ten `TimerContext`, and when handle creation fails the job is
dropped outright; on both paths the submitted job is invoked zero times, not
the exactly-once the claim requires. -/
theorem backend_delivery_windows_timer_bug {J : Type} :
    (∀ (channelOpen : Bool) (q : List J) (j : J),
        (ExecutorQueue.dispatch channelOpen q j).1 ++
          (ExecutorQueue.dispatch channelOpen q j).2 = q ++ [j]) ∧
    (∀ (channelOpen : Bool) (q : List J) (d : Nat) (j : J),
        (ExecutorQueue.dispatch_after channelOpen q d j).1 ++
          (ExecutorQueue.dispatch_after channelOpen q d j).2 = q ++ [j]) ∧
    (∀ (q : List J), ExecutorQueue.workerRun q = q) ∧
    WindowsPlatformExecutor.exec_after true 5 (0 : Nat) =
      some { context := none, leaked := some 0 } ∧
    WindowsPlatformExecutor.execAfterRuns true 5 (0 : Nat) = 0 ∧
    WindowsPlatformExecutor.exec_after false 5 (0 : Nat) = none ∧
    WindowsPlatformExecutor.execAfterRuns false 5 (0 : Nat) = 0 := by
  refine ⟨?_, ?_, ?_, by decide, by decide, by decide, by decide⟩
  · intro channelOpen q j
    cases channelOpen <;> simp [ExecutorQueue.dispatch]
  · intro channelOpen q d j
    cases channelOpen <;>
      rcases eq_or_ne d 0 with h | h <;>
        simp [ExecutorQueue.dispatch_after, ExecutorQueue.dispatch, h]
  · intro q
    induction q with
    | nil => rfl
    | cons j rest ih => simp [ExecutorQueue.workerRun, ih]

/-- C3: `Timer::after(d)` starts with duration `d` present and the completion
flag false; any poll while the flag is set returns complete and leaves the
state unchanged (idempotent); the first poll while the duration is present
consumes it, registers exactly one delayed callback via
`exec_after(d, callback, Priority::Default)` — where the callback sets the
shared flag and wakes the caller — and returns still-suspended. -/
theorem timer_spec :
    (∀ d : Nat, (Timer.after d).duration = some d ∧
        (Timer.after d).finished = false) ∧
    (∀ t : Timer, t.finished = true →
        t.poll = { result := Poll.Ready, timer := t, registered := [] }) ∧
    (∀ d : Nat,
        (Timer.after d).poll =
          { result := Poll.Pending
            timer := { duration := none, finished := false }
            registered := [(d, Priority.Default)] }) ∧
    (∀ flag woken : Bool, timerCallback flag woken = (true, true)) := by
  refine ⟨fun d => ⟨rfl, rfl⟩, ?_, fun d => rfl, fun f w => rfl⟩
  intro t h
  simp [Timer.poll, h]

/-- C3 witness: polling an already-completed concrete timer returns complete
and leaves it unchanged. -/
theorem timer_spec_witness :
    (Timer.mk (some 3) true).poll =
      { result := Poll.Ready, timer := Timer.mk (some 3) true,
        registered := [] } :=
  timer_spec.2.1 (Timer.mk (some 3) true) rfl

/-- C4: `Mailbox::call(f)` returns exactly the result of applying `f` to the
mailbox-owned value as it stood when the job was applied, delivered over the
single-slot response channel; if the background task terminates before a
response is produced, `call` panics with "Mailbox call failed" rather than
returning. -/
theorem mailbox_call_spec {T R : Type} :
    (∀ (f : T → R) (v : T), Mailbox.call true f v = Except.ok (f v)) ∧
    (∀ (f : T → R) (v : T),
        Mailbox.call false f v = Except.error "Mailbox call failed") :=
  ⟨fun _ _ => rfl, fun _ _ => rfl⟩

/-- C5: the channel buffer after all producers' sends is exactly the single
global order in which the sends occurred; the background loop applies the
buffered jobs one at a time in exactly that order; and the loop's `recv`
reports exit only when no live sender remains (the sender side is entirely
dropped) and the buffer is drained. -/
theorem mailbox_global_fifo {T E : Type} :
    (∀ (sends : List (Job T E)), sendAll true [] sends = sends) ∧
    (∀ (v : T) (q : List (Job T E)),
        (mailboxRun v q).1 = q.map (fun j => j v)) ∧
    (∀ (c : Chan (Job T E)), (chanStep c).1 = StepOut.exited →
        c.senders = 0 ∧ c.queue = []) := by
  refine ⟨?_, ?_, ?_⟩
  · intro sends
    simpa using sendAll_open sends []
  · intro v q
    induction q with
    | nil => rfl
    | cons j rest ih => simp [mailboxRun, ih]
  · intro c h
    obtain ⟨q, s⟩ := c
    cases q with
    | cons a rest => exact StepOut.noConfusion h
    | nil =>
      cases s with
      | zero => exact ⟨rfl, rfl⟩
      | succ s => exact StepOut.noConfusion h

/-- C5 witness: on the concrete closed-and-drained channel state, the loop
exits, and the theorem yields that no sender remains. -/
theorem mailbox_global_fifo_witness :
    ({ queue := [], senders := 0 } : Chan (Job Nat Nat)).senders = 0 ∧
    ({ queue := [], senders := 0 } : Chan (Job Nat Nat)).queue = [] :=
  (@mailbox_global_fifo Nat Nat).2.2 { queue := [], senders := 0 } rfl

/-- C6: a `LocalValue` created on thread `a` with value `v`: dereferencing,
mutating, consuming, and dropping on thread `a` all succeed and yield exactly
`v`; each of those operations performed from a different thread `b` fails the
affinity assertion and panics rather than returning. -/
theorem local_value_affinity {T : Type} :
    ∀ (a b : ThreadId) (v w : T), a ≠ b →
      (LocalValue.new a v).deref a = Except.ok v ∧
      (LocalValue.new a v).deref_mut a w =
        Except.ok (v, { created := a, value := w }) ∧
      (LocalValue.new a v).into_inner a = Except.ok v ∧
      (LocalValue.new a v).drop a = Except.ok () ∧
      (LocalValue.new a v).deref b =
        Except.error "Attempted to access a LocalValue on a different thread" ∧
      (LocalValue.new a v).deref_mut b w =
        Except.error "Attempted to mutate a LocalValue on a different thread" ∧
      (LocalValue.new a v).into_inner b =
        Except.error "Attempted to get a LocalValue on a different thread" ∧
      (LocalValue.new a v).drop b =
        Except.error "Attempted to drop a LocalValue on a different thread" := by
  intro a b v w h
  have ha : LocalValue.on_local { created := a, value := v } a = true := by
    simp [LocalValue.on_local]
  have hb : LocalValue.on_local { created := a, value := v } b = false := by
    simpa [LocalValue.on_local] using h
  refine ⟨?_, ?_, ?_, ?_, ?_, ?_, ?_, ?_⟩ <;>
    simp [LocalValue.deref, LocalValue.deref_mut, LocalValue.into_inner,
      LocalValue.drop, ha, hb, LocalValue.new]

/-- C6 witness: concretely, dereferencing a `LocalValue` created on thread 0
from thread 1 panics with the affinity message. -/
theorem local_value_affinity_witness :
    (LocalValue.new 0 (5 : Nat)).deref 1 =
      Except.error "Attempted to access a LocalValue on a different thread" :=
  (local_value_affinity 0 1 5 7 (by decide)).2.2.2.2.1

/-- C7: a `OnceValue` created on its thread with value `v`: before any take,
`get` and `get_mut` borrow `v` successfully; the first `take` returns `v` and
empties the cell; on the emptied cell a second `take`, a `get`, or a `get_mut`
panics with the unwrap message, and `into_inner` panics with "Once value has
already been taken". -/
theorem once_value_spec {T : Type} :
    ∀ (a : ThreadId) (v : T),
      (OnceValue.new a v).get a = Except.ok v ∧
      (OnceValue.new a v).get_mut a = Except.ok v ∧
      (OnceValue.new a v).take a =
        Except.ok (v, { inner := { created := a, value := none } }) ∧
      ({ inner := { created := a, value := (none : Option T) } } :
          OnceValue T).take a =
        Except.error "called Option::unwrap on a None value" ∧
      ({ inner := { created := a, value := (none : Option T) } } :
          OnceValue T).get a =
        Except.error "called Option::unwrap on a None value" ∧
      ({ inner := { created := a, value := (none : Option T) } } :
          OnceValue T).get_mut a =
        Except.error "called Option::unwrap on a None value" ∧
      ({ inner := { created := a, value := (none : Option T) } } :
          OnceValue T).into_inner a =
        Except.error "Once value has already been taken" := by
  intro a v
  refine ⟨?_, ?_, ?_, ?_, ?_, ?_, ?_⟩ <;>
    simp [OnceValue.new, OnceValue.get, OnceValue.get_mut, OnceValue.take,
      OnceValue.into_inner, LocalValue.deref, LocalValue.into_inner,
      LocalValue.on_local, LocalValue.new]

/-- C8: every resumption submitted over the whole lifetime of a task created
by `spawn_with_priority(_, p)` — the initial submission and each one produced
when the computation re-suspends — carries the same priority `p`; the
priority of a task never changes after the task is created. -/
theorem spawn_priority_immutable {R : Type} :
    ∀ (p : Priority) (wakeups : List R) (s : Submission R),
      s ∈ taskSubmissions p wakeups → s.priority = p := by
  intro p ws s hs
  simp only [taskSubmissions, List.mem_map] at hs
  obtain ⟨r, _, rfl⟩ := hs
  rfl

/-- C8 witness: a concrete submission drawn from a background-priority task's
lifetime carries the background priority. -/
theorem spawn_priority_immutable_witness :
    (Submission.mk (0 : Nat) Priority.Background).priority =
      Priority.Background :=
  spawn_priority_immutable Priority.Background [0, 1]
    (Submission.mk 0 Priority.Background) (by decide)

/-- C9: `Mailbox::handle(update)` is total and returns normally in every
case: with the background task alive it appends the job to the queue, and
with the channel closed the update is silently discarded (the queue is left
unchanged and the `try_send` failure never surfaces as an error or panic). -/
theorem mailbox_handle_spec {T E : Type} :
    (∀ (buf : List (Job T E)) (u : Job T E),
        Mailbox.handle true buf u = buf ++ [u]) ∧
    (∀ (buf : List (Job T E)) (u : Job T E),
        Mailbox.handle false buf u = buf) :=
  ⟨fun _ _ => rfl, fun _ _ => rfl⟩

/-- C10: every Mailbox job receives only a shared reference to the owned
value — a `Job T E` consumes the value and produces an observable effect but
cannot replace the value — so processing any queue of jobs (those enqueued by
`handle` and the jobs built by `call` alike) leaves the owned value exactly
as it was. -/
theorem mailbox_jobs_read_only {T E : Type} :
    ∀ (v : T) (q : List (Job T E)), (mailboxRun v q).2 = v := by
  intro v q
  induction q with
  | nil => rfl
  | cons j rest ih => simp [mailboxRun, ih]

end NativeExecutor
